import Mathlib

/-!
Verification of the lazyff argument-building engine.

This file gives a shallow embedding of the TypeScript sources under
src/packages (compress, trim, convert, extract, thumbnail, merge builders,
the preset catalog and the stderr classifier) and proves properties of the
embedded definitions.  JavaScript numbers are modelled as exact rationals
(with an Option layer where NaN can arise), Node path functions and string
utilities are modelled over lists of characters, and effectful code takes
its probed metadata and filesystem answers as explicit parameters.
-/


/-! ## Exact rational numbers

JavaScript numbers are modelled as exact rationals in a canonical
numerator/denominator form whose arithmetic the kernel can evaluate;
`toRat` maps them to the Mathlib rationals for algebraic reasoning.
This is exact on the decimal values these programs manipulate. -/

/-- A rational number in canonical form: positive denominator, reduced. -/
structure JQ where
  /-- Numerator. -/
  n : ℤ
  /-- Denominator. -/
  d : ℕ
  /-- The denominator is positive. -/
  dPos : 0 < d
  /-- The fraction is reduced. -/
  red : n.natAbs.Coprime d

instance : DecidableEq JQ := fun a b =>
  if h : a.n = b.n ∧ a.d = b.d then
    isTrue (by cases a; cases b; simp_all)
  else
    isFalse (by intro he; cases he; simp_all)

def qOfInt (i : ℤ) : JQ := ⟨i, 1, Nat.one_pos, Nat.coprime_one_right _⟩

instance (k : ℕ) : OfNat JQ k := ⟨qOfInt k⟩

def qNormalize (num den : ℤ) : JQ :=
  if hden : den = 0 then qOfInt 0
  else
    let m : ℕ := num.natAbs
    let dd : ℕ := den.natAbs
    let g : ℕ := Nat.gcd m dd
    have hdd : 0 < dd := Int.natAbs_pos.mpr hden
    have hg : 0 < g := Nat.gcd_pos_of_pos_right _ hdd
    ⟨if (decide (num < 0)) != (decide (den < 0)) then -((m / g : ℕ) : ℤ) else ((m / g : ℕ) : ℤ),
     dd / g,
     Nat.div_pos (Nat.le_of_dvd hdd (Nat.gcd_dvd_right _ _)) hg,
     by
      have hco : (m / g).Coprime (dd / g) := Nat.coprime_div_gcd_div_gcd hg
      rcases h : (decide (num < 0)) != (decide (den < 0)) with _ | _ <;> simpa using hco⟩

def toRat (a : JQ) : ℚ := ⟨a.n, a.d, a.dPos.ne', a.red⟩

def qAdd (a b : JQ) : JQ := qNormalize (a.n * b.d + b.n * a.d) (a.d * b.d)

def qSub (a b : JQ) : JQ := qNormalize (a.n * b.d - b.n * a.d) (a.d * b.d)

def qMul (a b : JQ) : JQ := qNormalize (a.n * b.n) (a.d * b.d)

def qDiv (a b : JQ) : JQ := qNormalize (a.n * b.d) (a.d * b.n)

def qLtB (a b : JQ) : Bool := decide (a.n * (b.d : ℤ) < b.n * (a.d : ℤ))

def qLeB (a b : JQ) : Bool := decide (a.n * (b.d : ℤ) ≤ b.n * (a.d : ℤ))

def qMax (a b : JQ) : JQ := if qLtB a b then b else a

def qFloor (a : JQ) : ℤ := Int.fdiv a.n a.d

deriving instance DecidableEq for Except

/-! ## JavaScript primitive models -/

/-- One decimal digit as a character. -/
def digitChar (n : ℕ) : Char := Char.ofNat (48 + n)

/-- Fuelled decimal digit rendering of a natural number. -/
def natDigits : ℕ → ℕ → List Char
  | 0, _ => []
  | fuel + 1, n =>
    if n < 10 then [digitChar n] else natDigits fuel (n / 10) ++ [digitChar (n % 10)]

/-- Decimal rendering of a natural number. -/
def natToString (n : ℕ) : String := ⟨natDigits (n + 1) n⟩

/-- Decimal rendering of an integer. -/
def intToString (i : ℤ) : String :=
  if i < 0 then "-" ++ natToString i.natAbs else natToString i.natAbs

/-- Pad a digit string with leading zeros up to width `k`. -/
def padZeros (k : ℕ) (s : String) : String :=
  ⟨List.replicate (k - s.data.length) (digitChar 0)⟩ ++ s

/-- Least exponent `k ≤ 39` with `q * 10^k` integral, if any. -/
def decExp (q : JQ) : Option ℕ :=
  (List.range 40).find? (fun k => (qMul q (qOfInt ((10 ^ k : ℕ) : ℤ))).d = 1)

/-- Decimal rendering of a nonnegative rational; exact when the decimal
expansion terminates, which models the JavaScript `Number.toString`
output on the values exercised here. -/
def qToStringPos (q : JQ) : String :=
  match decExp q with
  | some 0 => natToString q.n.natAbs
  | some k =>
    let n := (qMul q (qOfInt ((10 ^ k : ℕ) : ℤ))).n.natAbs
    natToString (n / 10 ^ k) ++ "." ++ padZeros k (natToString (n % 10 ^ k))
  | none =>
    let v := qMul q (qOfInt ((10 ^ 17 : ℕ) : ℤ))
    let n := v.n.natAbs / v.d
    natToString (n / 10 ^ 17) ++ "." ++ padZeros 17 (natToString (n % 10 ^ 17))

/-- Negation. -/
def qNeg (a : JQ) : JQ := ⟨-a.n, a.d, a.dPos, by simpa using a.red⟩

/-- Model of JavaScript number-to-string conversion. -/
def qToString (q : JQ) : String :=
  if q.n < 0 then "-" ++ qToStringPos (qNeg q) else qToStringPos q

/-- Model of JavaScript `toFixed` on a nonnegative rational. -/
def qToFixedPos (d : ℕ) (q : JQ) : String :=
  let m := (qFloor (qAdd (qMul q (qOfInt ((10 ^ d : ℕ) : ℤ))) (qNormalize 1 2))).natAbs
  if d = 0 then natToString m
  else natToString (m / 10 ^ d) ++ "." ++ padZeros d (natToString (m % 10 ^ d))

/-- Model of JavaScript `Number.toFixed`. -/
def qToFixed (d : ℕ) (q : JQ) : String :=
  if q.n < 0 then "-" ++ qToFixedPos d (qNeg q) else qToFixedPos d q

/-- JavaScript whitespace class used by `\s`, `trim` and `parseInt`. -/
def isJsWs (c : Char) : Bool :=
  c = ' ' || c = '\t' || c = '\n' || c = '\r' || c.toNat = 11 || c.toNat = 12

/-- Accumulate a run of leading decimal digits: value, digit count, rest. -/
def parseDigitsAux : List Char → ℕ → ℕ → ℕ × ℕ × List Char
  | [], acc, cnt => (acc, cnt, [])
  | c :: cs, acc, cnt =>
    if c.isDigit then parseDigitsAux cs (acc * 10 + (c.toNat - 48)) (cnt + 1)
    else (acc, cnt, c :: cs)

/-- Model of JavaScript `parseFloat` restricted to unsigned decimal input;
`none` stands for NaN. -/
def jsParseFloat (s : String) : Option JQ :=
  let r := parseDigitsAux s.data 0 0
  match r.2.2 with
  | '.' :: rest2 =>
    let f := parseDigitsAux rest2 0 0
    if r.2.1 = 0 && f.2.1 = 0 then none
    else some (qNormalize ((r.1 : ℤ) * ((10 ^ f.2.1 : ℕ) : ℤ) + (f.1 : ℤ)) ((10 ^ f.2.1 : ℕ) : ℤ))
  | _ => if r.2.1 = 0 then none else some (qOfInt (r.1 : ℤ))

/-- Signed digit-run parse used by `jsParseInt`. -/
def jsParseIntCore (l : List Char) : Option ℤ :=
  let r := parseDigitsAux l 0 0
  if r.2.1 = 0 then none else some (r.1 : ℤ)

/-- Model of JavaScript `parseInt` (base 10); `none` stands for NaN. -/
def jsParseInt (s : String) : Option ℤ :=
  match s.data.dropWhile isJsWs with
  | '-' :: rest => (jsParseIntCore rest).map (fun n => -n)
  | '+' :: rest => jsParseIntCore rest
  | l => jsParseIntCore l

/-- Split a string at every occurrence of a one-character separator,
modelling JavaScript `String.split`. -/
def splitOnCharAux (c : Char) : List Char → List Char → List String
  | [], acc => [⟨acc.reverse⟩]
  | a :: rest, acc =>
    if a = c then ⟨acc.reverse⟩ :: splitOnCharAux c rest []
    else splitOnCharAux c rest (a :: acc)

/-- JavaScript `String.split` with a single-character separator. -/
def splitOnChar (c : Char) (s : String) : List String := splitOnCharAux c s.data []

/-- ASCII lowercasing of a string. -/
def lowerStr (s : String) : String := ⟨s.data.map Char.toLower⟩

/-- ASCII uppercasing of a string. -/
def upperStr (s : String) : String := ⟨s.data.map Char.toUpper⟩

/-- Substring test on character lists. -/
def containsList (n : List Char) : List Char → Bool
  | [] => n.isEmpty
  | c :: cs => n.isPrefixOf (c :: cs) || containsList n cs

/-- Model of JavaScript `String.includes`. -/
def containsStr (n h : String) : Bool := containsList n.data h.data

/-- JavaScript truthiness of an optional string. -/
def truthyS : Option String → Bool
  | none => false
  | some s => !(s == "")

/-- JavaScript truthiness of an optional number: a present nonzero value. -/
def truthyN : Option JQ → Bool
  | none => false
  | some q => !(q.n == 0)

/-- JavaScript `a || b` on an optional string with a string default. -/
def jsOrS (a : Option String) (b : String) : String :=
  if truthyS a then a.getD "" else b

/-- JavaScript `a || b` on an optional number with a numeric default. -/
def jsOrN (a : Option JQ) (b : JQ) : JQ :=
  if truthyN a then a.getD 0 else b

/-! ## Node path model

Models of `path.dirname`, `path.basename`, `path.extname` and `path.join`
for ordinary relative and absolute paths (no trailing slash, single
separators), the shapes the builders produce and consume. -/

/-- Split a list at the last occurrence of `c`: the part before and after. -/
def splitLast (c : Char) : List Char → Option (List Char × List Char)
  | [] => none
  | a :: rest =>
    match splitLast c rest with
    | some (pre, post) => some (a :: pre, post)
    | none => if a = c then some ([], rest) else none

/-- Model of `path.dirname`. -/
def dirname (s : String) : String :=
  match splitLast (Char.ofNat 47) s.data with
  | none => "."
  | some ([], _) => "/"
  | some (p, _) => ⟨p⟩

/-- Model of `path.basename` (without an extension argument). -/
def basenameStr (s : String) : String :=
  match splitLast (Char.ofNat 47) s.data with
  | none => s
  | some (_, b) => ⟨b⟩

/-- Split a file name into stem and extension, the extension including its
dot; a leading dot starts no extension. -/
def extSplit (b : List Char) : List Char × List Char :=
  match splitLast '.' b with
  | none => (b, [])
  | some ([], _) => (b, [])
  | some (p, post) => (p, '.' :: post)

/-- Model of `path.extname`. -/
def extname (s : String) : String := ⟨(extSplit (basenameStr s).data).2⟩

/-- Model of `path.basename(input, path.extname(input))`: the stem. -/
def stemOf (s : String) : String := ⟨(extSplit (basenameStr s).data).1⟩

/-- Model of `path.join` on a directory and a file name. -/
def pathJoin (d b : String) : String :=
  if d = "." then b else if d = "/" then "/" ++ b else d ++ "/" ++ b

/-! ## compress.ts -/

/-- Binary multiplier table of `parseSize`. -/
def sizeMultiplier (unit : String) : Option JQ :=
  if unit = "B" then some (qOfInt 1)
  else if unit = "KB" then some (qOfInt 1024)
  else if unit = "MB" then some (qOfInt (1024 * 1024))
  else if unit = "GB" then some (qOfInt (1024 * 1024 * 1024))
  else if unit = "TB" then some (qOfInt (1024 * 1024 * 1024 * 1024))
  else none

/-- `parseSize`: parse a size string such as `25MB` into a byte count,
flooring; throws (`.error`) when the string fails the pattern
`^([\d.]+)\s*(B|KB|MB|GB|TB)?$` (case-insensitive).  The inner `Option`
is the NaN layer of JavaScript numbers. -/
def parseSize (sizeStr : String) : Except String (Option JQ) :=
  let numPart := sizeStr.data.takeWhile (fun c => c.isDigit || c = '.')
  let rest := (sizeStr.data.dropWhile (fun c => c.isDigit || c = '.')).dropWhile isJsWs
  if numPart.isEmpty then .error ("Invalid size format: " ++ sizeStr)
  else
    let unit := if rest.isEmpty then "B" else upperStr ⟨rest⟩
    match sizeMultiplier unit with
    | none => .error ("Invalid size format: " ++ sizeStr)
    | some mult =>
      .ok ((jsParseFloat ⟨numPart⟩).map (fun v => qOfInt (qFloor (qMul v mult))))

/-- `calculateBitrate`: video bitrate needed to hit a target size. -/
def calculateBitrate (targetBytes durationSeconds : JQ)
    (audioBitrate : JQ := qOfInt 128000) : JQ :=
  let totalBitrate := qDiv (qMul targetBytes (qOfInt 8)) durationSeconds
  let videoBitrate := qSub (qMul totalBitrate (qNormalize 95 100)) audioBitrate
  qMax videoBitrate (qOfInt 100000)

/-- `parseBitrate`: parse a bitrate string such as `2M` or `500k` into
bits per second; throws on strings failing `^([\d.]+)\s*(k|m)?$`
(case-insensitive). -/
def parseBitrate (bitrateStr : String) : Except String (Option JQ) :=
  let numPart := bitrateStr.data.takeWhile (fun c => c.isDigit || c = '.')
  let rest := (bitrateStr.data.dropWhile (fun c => c.isDigit || c = '.')).dropWhile isJsWs
  if numPart.isEmpty then .error ("Invalid bitrate format: " ++ bitrateStr)
  else
    let unit := lowerStr ⟨rest⟩
    if unit = "" then .ok (jsParseFloat ⟨numPart⟩)
    else if unit = "m" then
      .ok ((jsParseFloat ⟨numPart⟩).map (fun v => qMul v (qOfInt 1000000)))
    else if unit = "k" then
      .ok ((jsParseFloat ⟨numPart⟩).map (fun v => qMul v (qOfInt 1000)))
    else .error ("Invalid bitrate format: " ++ bitrateStr)

/-- `formatBitrate`: render a bitrate for the ffmpeg command line. -/
def formatBitrate (bps : Option JQ) : String :=
  match bps with
  | some q =>
    if qLeB (qOfInt 1000000) q then qToFixed 1 (qDiv q (qOfInt 1000000)) ++ "M"
    else qToFixed 0 (qDiv q (qOfInt 1000)) ++ "k"
  | none => "NaNk"

/-- Options of the compress command. -/
structure CompressOptions where
  input : String
  output : Option String := none
  targetSize : Option String := none
  bitrate : Option String := none
  percent : Option JQ := none
  audioBitrate : Option String := none
  overwrite : Bool := false
deriving DecidableEq

/-- The `MediaInfo` record returned by `getMediaInfo` in ffmpeg/index.ts:
every field is optional.  A missing duration stands for both undefined and
NaN, which every consuming expression (`mediaInfo?.duration` truthiness and
`|| 60` defaulting) treats alike.  Only the duration field is consumed by
the embedded builders. -/
structure MediaInfo where
  duration : Option JQ := none
  width : Option JQ := none
  height : Option JQ := none
  codec : Option String := none
  bitrate : Option JQ := none
  format : Option String := none
deriving DecidableEq

/-- Result of `buildCompressArgs`. -/
structure CompressBuild where
  args : List String
  outputPath : String
  targetBitrate : Option JQ
deriving DecidableEq

/-- NaN-lifted `calculateBitrate`. -/
def jsCalculateBitrate (t : Option JQ) (d : JQ) (a : Option JQ) : Option JQ :=
  match t, a with
  | some t, some a => some (calculateBitrate t d a)
  | _, _ => none

/-- NaN-lifted multiplication by a constant. -/
def jsMulC (a : Option JQ) (b : JQ) : Option JQ := a.map (fun v => qMul v b)

/-- `buildCompressArgs`: the probed media info and the input file size
(from `fs.statSync`) are passed explicitly. -/
def buildCompressArgs (o : CompressOptions) (mediaInfo : Option MediaInfo)
    (inputFileSize : JQ) : Except String CompressBuild :=
  if truthyN (mediaInfo.bind (·.duration)) = false then
    .error "Could not determine video duration"
  else
    let duration := (mediaInfo.bind (·.duration)).getD 0
    let audioBitrateE : Except String (Option JQ) :=
      if truthyS o.audioBitrate then parseBitrate (o.audioBitrate.getD "")
      else .ok (some (qOfInt 128000))
    match audioBitrateE with
    | .error e => .error e
    | .ok audioBitrate =>
      let targetBitrateE : Except String (Option JQ) :=
        if truthyS o.targetSize then
          match parseSize (o.targetSize.getD "") with
          | .error e => .error e
          | .ok targetBytes => .ok (jsCalculateBitrate targetBytes duration audioBitrate)
        else if truthyS o.bitrate then parseBitrate (o.bitrate.getD "")
        else if truthyN o.percent then
          let currentBitrate := qDiv (qMul inputFileSize (qOfInt 8)) duration
          .ok (o.percent.map (fun p => qMul currentBitrate (qDiv p (qOfInt 100))))
        else .error "Must specify --target-size, --bitrate, or --percent"
      match targetBitrateE with
      | .error e => .error e
      | .ok targetBitrate =>
        let ext := extname o.input
        let dir := dirname o.input
        let name := stemOf o.input
        let outputPath := jsOrS o.output (pathJoin dir (name ++ "_compressed" ++ ext))
        let args :=
          (if o.overwrite then ["-y"] else []) ++
          ["-hide_banner", "-i", o.input,
           "-c:v", "libx264",
           "-b:v", formatBitrate targetBitrate,
           "-maxrate", formatBitrate (jsMulC targetBitrate (qNormalize 3 2)),
           "-bufsize", formatBitrate (jsMulC targetBitrate (qOfInt 2)),
           "-preset", "medium",
           "-c:a", "aac",
           "-b:a", jsOrS o.audioBitrate "128k",
           outputPath]
        .ok ⟨args, outputPath, targetBitrate⟩

/-- Number of truthy entries, modelling `[..].filter(Boolean).length`. -/
def countTruthy (l : List Bool) : ℕ := (l.filter id).length

/-- Validation-plus-build portion of the programmatic `compress` function;
file existence checks and process invocation are outside the model. -/
def compressProg (o : CompressOptions) (mediaInfo : Option MediaInfo)
    (inputFileSize : JQ) : Except String CompressBuild :=
  if countTruthy [truthyS o.targetSize, truthyS o.bitrate, truthyN o.percent] = 0 then
    .error "Must specify targetSize, bitrate, or percent"
  else buildCompressArgs o mediaInfo inputFileSize

/-- The `.check` validation of the compress CLI command. -/
def compressCheckCLI (targetSize bitrate : Option String) (percent : Option JQ) :
    Except String Unit :=
  let targets := countTruthy [truthyS targetSize, truthyS bitrate, truthyN percent]
  if targets = 0 then .error "Must specify one of: --target-size, --bitrate, or --percent"
  else if 1 < targets then .error "Can only specify one of: --target-size, --bitrate, or --percent"
  else if (match percent with
           | some p => qLeB p (qOfInt 0) || qLtB (qOfInt 100) p
           | none => false) then .error "Percent must be between 1 and 100"
  else .ok ()

/-! ## trim.ts -/

/-- Options of the trim command. -/
structure TrimOptions where
  input : String
  output : Option String := none
  startTime : Option String := none
  endTime : Option String := none
  duration : Option String := none
  copy : Bool := false
  overwrite : Bool := false
deriving DecidableEq

/-- Result of an argument builder: argument list and output path. -/
structure BuildResult where
  args : List String
  outputPath : String
deriving DecidableEq

/-- `buildTrimArgs`: assemble the ffmpeg argument list for a trim. -/
def buildTrimArgs (o : TrimOptions) : BuildResult :=
  let ext := extname o.input
  let dir := dirname o.input
  let name := stemOf o.input
  let outputPath := jsOrS o.output (pathJoin dir (name ++ "_trimmed" ++ ext))
  let args :=
    (if o.overwrite then ["-y"] else []) ++
    ["-hide_banner"] ++
    (if truthyS o.startTime then ["-ss", o.startTime.getD ""] else []) ++
    ["-i", o.input] ++
    (if truthyS o.endTime then ["-to", o.endTime.getD ""] else []) ++
    (if truthyS o.duration then ["-t", o.duration.getD ""] else []) ++
    (if o.copy then ["-c", "copy"]
     else ["-c:v", "libx264", "-crf", "18", "-preset", "medium",
           "-c:a", "aac", "-b:a", "192k"]) ++
    ["-avoid_negative_ts", "make_zero"] ++
    [outputPath]
  ⟨args, outputPath⟩

/-- The `.check` validation of the trim CLI command. -/
def trimCheckCLI (start endTime duration : Option String) : Except String Unit :=
  if !truthyS start && !truthyS endTime && !truthyS duration then
    .error "At least one of --start, --end, or --duration is required"
  else if truthyS endTime && truthyS duration then
    .error "Cannot use both --end and --duration together"
  else .ok ()

/-- Validation-plus-build portion of the programmatic `trim` function;
file existence checks and process invocation are outside the model. -/
def trimProg (o : TrimOptions) : Except String BuildResult :=
  if !truthyS o.startTime && !truthyS o.endTime && !truthyS o.duration then
    .error "At least one of startTime, endTime, or duration is required"
  else .ok (buildTrimArgs o)

/-! ## presets.ts -/

/-- One entry of the format preset catalog. -/
structure FormatPresetRec where
  container : String
  videoCodec : Option String
  audioCodec : Option String
  extension : String
deriving DecidableEq

/-- The `FORMAT_PRESETS` lookup table. -/
def FORMAT_PRESETS (name : String) : Option FormatPresetRec :=
  if name = "mp4" then some ⟨"mp4", some "libx264", some "aac", "mp4"⟩
  else if name = "webm" then some ⟨"webm", some "libvpx-vp9", some "libopus", "webm"⟩
  else if name = "mkv" then some ⟨"matroska", some "libx264", some "aac", "mkv"⟩
  else if name = "mov" then some ⟨"mov", some "libx264", some "aac", "mov"⟩
  else if name = "gif" then some ⟨"gif", some "gif", none, "gif"⟩
  else if name = "mp3" then some ⟨"mp3", none, some "libmp3lame", "mp3"⟩
  else if name = "wav" then some ⟨"wav", none, some "pcm_s16le", "wav"⟩
  else if name = "flac" then some ⟨"flac", none, some "flac", "flac"⟩
  else if name = "ogg" then some ⟨"ogg", none, some "libvorbis", "ogg"⟩
  else if name = "avi" then some ⟨"avi", some "libx264", some "libmp3lame", "avi"⟩
  else if name = "ts" then some ⟨"mpegts", some "libx264", some "aac", "ts"⟩
  else none

/-- Keys of the quality preset table; the TypeScript type system restricts
the quality option to these. -/
inductive QualityPreset where
  | low
  | medium
  | high
  | lossless
deriving DecidableEq

/-- One entry of the quality preset catalog. -/
structure QualityPresetRec where
  crf : ℕ
  preset : String
  audioBitrate : String
deriving DecidableEq

/-- The `QUALITY_PRESETS` lookup table. -/
def QUALITY_PRESETS : QualityPreset → QualityPresetRec
  | .low => ⟨28, "fast", "96k"⟩
  | .medium => ⟨23, "medium", "128k"⟩
  | .high => ⟨18, "slow", "192k"⟩
  | .lossless => ⟨0, "veryslow", "320k"⟩

/-- One entry of the resolution preset catalog. -/
structure ResolutionPresetRec where
  width : ℕ
  height : ℕ
deriving DecidableEq

/-- The `RESOLUTION_PRESETS` lookup table. -/
def RESOLUTION_PRESETS (name : String) : Option ResolutionPresetRec :=
  if name = "360p" then some ⟨640, 360⟩
  else if name = "480p" then some ⟨854, 480⟩
  else if name = "720p" then some ⟨1280, 720⟩
  else if name = "1080p" then some ⟨1920, 1080⟩
  else if name = "1440p" then some ⟨2560, 1440⟩
  else if name = "4k" then some ⟨3840, 2160⟩
  else none

/-- The `VIDEO_CODECS` alias table. -/
def VIDEO_CODECS (name : String) : Option String :=
  if name = "h264" then some "libx264"
  else if name = "x264" then some "libx264"
  else if name = "h265" then some "libx265"
  else if name = "x265" then some "libx265"
  else if name = "hevc" then some "libx265"
  else if name = "vp8" then some "libvpx"
  else if name = "vp9" then some "libvpx-vp9"
  else if name = "av1" then some "libaom-av1"
  else if name = "copy" then some "copy"
  else none

/-- The `AUDIO_CODECS` alias table. -/
def AUDIO_CODECS (name : String) : Option String :=
  if name = "aac" then some "aac"
  else if name = "mp3" then some "libmp3lame"
  else if name = "opus" then some "libopus"
  else if name = "vorbis" then some "libvorbis"
  else if name = "flac" then some "flac"
  else if name = "wav" then some "pcm_s16le"
  else if name = "copy" then some "copy"
  else none

/-- `supportsCrf`: codecs accepting constant-rate-factor control. -/
def supportsCrf (codec : String) : Bool :=
  (["libx264", "libx265", "libvpx-vp9", "libaom-av1"] : List String).contains codec

/-! ## Convert builder (ffwrap) -/

/-- Options of the convert command. -/
structure ConvertOptions where
  input : String
  output : Option String := none
  format : Option String := none
  quality : Option QualityPreset := none
  videoCodec : Option String := none
  audioCodec : Option String := none
  resolution : Option String := none
  fps : Option JQ := none
  startTime : Option String := none
  endTime : Option String := none
  duration : Option String := none
  noAudio : Bool := false
  noVideo : Bool := false
  overwrite : Bool := false
deriving DecidableEq

/-- Lowercased extension of a path without its dot, modelling
`path.extname(p).slice(1).toLowerCase()`. -/
def extNoDotLower (s : String) : String :=
  lowerStr ⟨((extSplit (basenameStr s).data).2).drop 1⟩

/-- `inferFormatFromOutput`: derive a format key from the output path. -/
def inferFormatFromOutput (output : Option String) : Option String :=
  if truthyS output = false then none
  else
    let ext := extNoDotLower (output.getD "")
    if (FORMAT_PRESETS ext).isSome then some ext else none

/-- `generateOutputPath`: derive an output path from the input path and a
target extension, suffixing `_converted` on an extension collision. -/
def generateOutputPath (input : String) (extension : String) : String :=
  let dir := dirname input
  let name := stemOf input
  let inputExt := extNoDotLower input
  if inputExt = extension then pathJoin dir (name ++ "_converted." ++ extension)
  else pathJoin dir (name ++ "." ++ extension)

/-- `buildScaleFilter`: scale filter string from a resolution option. -/
def buildScaleFilter (resolution : String) : Option String :=
  match RESOLUTION_PRESETS resolution with
  | some preset => some ("scale=" ++ natToString preset.width ++ ":-2")
  | none =>
    let custom : Option String :=
      if containsStr "x" resolution then
        let parts := (splitOnChar 'x' resolution).map jsParseInt
        match parts.get? 0, parts.get? 1 with
        | some (some w), some (some h) =>
          some ("scale=" ++ intToString w ++ ":" ++ intToString h)
        | _, _ => none
      else none
    match custom with
    | some f => some f
    | none =>
      match jsParseInt resolution with
      | some w => some ("scale=" ++ intToString w ++ ":-2")
      | none => none

/-- `buildConvertArgs`: assemble the ffmpeg argument list for a convert. -/
def buildConvertArgs (o : ConvertOptions) : BuildResult :=
  let inputExt := extNoDotLower o.input
  let outputFormat := jsOrS o.format (jsOrS (inferFormatFromOutput o.output) inputExt)
  let formatPreset := FORMAT_PRESETS outputFormat
  let outputPath :=
    jsOrS o.output
      (generateOutputPath o.input (jsOrS (formatPreset.map (·.extension)) outputFormat))
  let quality := QUALITY_PRESETS (o.quality.getD .medium)
  let videoArgs :=
    if o.noVideo then ["-vn"]
    else if (match formatPreset with
             | some fp => fp.videoCodec.isNone
             | none => false) then []
    else
      let videoCodec : Option String :=
        if truthyS o.videoCodec then
          some (jsOrS (VIDEO_CODECS (o.videoCodec.getD "")) (o.videoCodec.getD ""))
        else if truthyS (formatPreset.bind (·.videoCodec)) then
          formatPreset.bind (·.videoCodec)
        else none
      match videoCodec with
      | some vc =>
        ["-c:v", vc] ++
        (if vc ≠ "copy" && supportsCrf vc then
          ["-crf", natToString quality.crf, "-preset", quality.preset]
         else [])
      | none => []
  let audioArgs :=
    if o.noAudio then ["-an"]
    else if (match formatPreset with
             | some fp => fp.audioCodec.isNone
             | none => false) then []
    else
      let audioCodec : Option String :=
        if truthyS o.audioCodec then
          some (jsOrS (AUDIO_CODECS (o.audioCodec.getD "")) (o.audioCodec.getD ""))
        else if truthyS (formatPreset.bind (·.audioCodec)) then
          formatPreset.bind (·.audioCodec)
        else none
      match audioCodec with
      | some ac =>
        ["-c:a", ac] ++
        (if ac ≠ "copy" && ac ≠ "flac" && ac ≠ "pcm_s16le" then
          ["-b:a", quality.audioBitrate]
         else [])
      | none => []
  let args :=
    (if o.overwrite then ["-y"] else []) ++
    ["-hide_banner"] ++
    ["-i", o.input] ++
    (if truthyS o.startTime then ["-ss", o.startTime.getD ""] else []) ++
    (if truthyS o.endTime then ["-to", o.endTime.getD ""] else []) ++
    (if truthyS o.duration then ["-t", o.duration.getD ""] else []) ++
    videoArgs ++
    (if truthyS o.resolution && !o.noVideo then
      (match buildScaleFilter (o.resolution.getD "") with
       | some f => ["-vf", f]
       | none => [])
     else []) ++
    (if truthyN o.fps && !o.noVideo then ["-r", qToString (o.fps.getD 0)] else []) ++
    audioArgs ++
    [outputPath]
  ⟨args, outputPath⟩

/-! ## extract.ts -/

/-- Options of the extract command. -/
structure ExtractOptions where
  input : String
  output : Option String := none
  audio : Option Bool := none
  video : Option Bool := none
  frames : Option Bool := none
  time : Option String := none
  fps : Option JQ := none
  format : Option String := none
  overwrite : Bool := false
deriving DecidableEq

/-- JavaScript truthiness of an optional boolean. -/
def truthyB : Option Bool → Bool
  | none => false
  | some b => b

/-- `buildAudioExtractArgs`. -/
def buildAudioExtractArgs (o : ExtractOptions) : BuildResult :=
  let format := jsOrS o.format "mp3"
  let codec : Option String :=
    if format = "mp3" then some "libmp3lame"
    else if format = "wav" then some "pcm_s16le"
    else if format = "flac" then some "flac"
    else if format = "aac" then some "aac"
    else if format = "ogg" then some "libvorbis"
    else if format = "opus" then some "libopus"
    else none
  let dir := dirname o.input
  let name := stemOf o.input
  let outputPath := jsOrS o.output (pathJoin dir (name ++ "." ++ format))
  let args :=
    (if o.overwrite then ["-y"] else []) ++
    ["-hide_banner", "-i", o.input, "-vn"] ++
    (match codec with
     | some c => ["-c:a", c]
     | none => []) ++
    (if format = "mp3" then ["-q:a", "2"]
     else if format = "aac" then ["-b:a", "192k"]
     else []) ++
    [outputPath]
  ⟨args, outputPath⟩

/-- `buildVideoExtractArgs`. -/
def buildVideoExtractArgs (o : ExtractOptions) : BuildResult :=
  let ext := extname o.input
  let dir := dirname o.input
  let name := stemOf o.input
  let outputPath := jsOrS o.output (pathJoin dir (name ++ "_video" ++ ext))
  let args :=
    (if o.overwrite then ["-y"] else []) ++
    ["-hide_banner", "-i", o.input, "-an", "-c:v", "copy"] ++
    [outputPath]
  ⟨args, outputPath⟩

/-- `buildFrameExtractArgs`. -/
def buildFrameExtractArgs (o : ExtractOptions) : BuildResult :=
  let dir := dirname o.input
  let name := stemOf o.input
  if truthyS o.time then
    let outputPath := jsOrS o.output (pathJoin dir (name ++ "_frame.png"))
    let args :=
      (if o.overwrite then ["-y"] else []) ++
      ["-hide_banner", "-ss", o.time.getD "", "-i", o.input, "-frames:v", "1"] ++
      [outputPath]
    ⟨args, outputPath⟩
  else
    let fps := jsOrN o.fps (qOfInt 1)
    let outputPattern := jsOrS o.output (pathJoin dir (name ++ "_frame_%04d.png"))
    let args :=
      (if o.overwrite then ["-y"] else []) ++
      ["-hide_banner", "-i", o.input, "-vf", "fps=" ++ qToString fps] ++
      [outputPattern]
    ⟨args, outputPattern⟩

/-- The `.check` validation of the extract CLI command. -/
def extractCheckCLI (audio video frames : Option Bool) : Except String Unit :=
  let modes := countTruthy [truthyB audio, truthyB video, truthyB frames]
  if modes = 0 then .error "Must specify one of: --audio, --video, or --frames"
  else if 1 < modes then .error "Can only specify one of: --audio, --video, or --frames"
  else .ok ()

/-- Validation-plus-build portion of the programmatic `extract` function;
file existence checks and process invocation are outside the model. -/
def extractProg (o : ExtractOptions) : Except String BuildResult :=
  if countTruthy [truthyB o.audio, truthyB o.video, truthyB o.frames] = 0 then
    .error "Must specify audio, video, or frames"
  else if truthyB o.audio then .ok (buildAudioExtractArgs o)
  else if truthyB o.video then .ok (buildVideoExtractArgs o)
  else if truthyB o.frames then .ok (buildFrameExtractArgs o)
  else .error "Invalid extraction mode"

/-! ## thumbnail.ts -/

/-- Options of the thumbnail command. -/
structure ThumbnailOptions where
  input : String
  output : Option String := none
  time : Option String := none
  count : Option JQ := none
  grid : Option String := none
  width : Option JQ := none
  format : Option String := none
  overwrite : Bool := false
deriving DecidableEq

/-- Comma join of filter fragments, modelling `Array.join(",")`. -/
def joinComma : List String → String
  | [] => ""
  | [x] => x
  | x :: rest => x ++ "," ++ joinComma rest

/-- Render an optional number, `NaN` when absent, modelling template
interpolation of a JavaScript number. -/
def optQToString : Option JQ → String
  | some q => qToString q
  | none => "NaN"

/-- Render an optional integer, `NaN` when absent. -/
def optIntToString : Option ℤ → String
  | some i => intToString i
  | none => "NaN"

/-- `buildSingleThumbnailArgs`. -/
def buildSingleThumbnailArgs (o : ThumbnailOptions) : BuildResult :=
  let ext := jsOrS o.format "png"
  let dir := dirname o.input
  let name := stemOf o.input
  let outputPath := jsOrS o.output (pathJoin dir (name ++ "_thumb." ++ ext))
  let args :=
    (if o.overwrite then ["-y"] else []) ++
    ["-hide_banner"] ++
    (if truthyS o.time then ["-ss", o.time.getD ""] else []) ++
    ["-i", o.input, "-frames:v", "1"] ++
    (if truthyN o.width then ["-vf", "scale=" ++ qToString (o.width.getD 0) ++ ":-1"] else []) ++
    [outputPath]
  ⟨args, outputPath⟩

/-- `buildMultipleThumbnailArgs`; the probed media info is passed
explicitly, and a missing or zero duration falls back to 60. -/
def buildMultipleThumbnailArgs (o : ThumbnailOptions) (mediaInfo : Option MediaInfo) :
    BuildResult :=
  let duration := jsOrN (mediaInfo.bind (·.duration)) (qOfInt 60)
  let count := jsOrN o.count (qOfInt 5)
  let fps := qDiv count duration
  let filters :=
    ["fps=" ++ qToString fps] ++
    (if truthyN o.width then ["scale=" ++ qToString (o.width.getD 0) ++ ":-1"] else [])
  let ext := jsOrS o.format "png"
  let dir := dirname o.input
  let name := stemOf o.input
  let outputPath := jsOrS o.output (pathJoin dir (name ++ "_thumb_%02d." ++ ext))
  let args :=
    (if o.overwrite then ["-y"] else []) ++
    ["-hide_banner", "-i", o.input,
     "-vf", joinComma filters,
     "-frames:v", qToString count] ++
    [outputPath]
  ⟨args, outputPath⟩

/-- `buildGridThumbnailArgs`; the probed media info is passed explicitly,
and a missing or zero duration falls back to 60. -/
def buildGridThumbnailArgs (o : ThumbnailOptions) (mediaInfo : Option MediaInfo) :
    BuildResult :=
  let gridParts := splitOnChar 'x' (jsOrS o.grid "3x3")
  let cols := jsParseInt (jsOrS (gridParts.get? 0) "3")
  let rows := jsParseInt (jsOrS (gridParts.get? 1) "3")
  let totalFrames : Option ℤ :=
    match cols, rows with
    | some c, some r => some (c * r)
    | _, _ => none
  let duration := jsOrN (mediaInfo.bind (·.duration)) (qOfInt 60)
  let fps : Option JQ := totalFrames.map (fun t => qDiv (qOfInt t) duration)
  let tileWidth := jsOrN o.width (qOfInt 320)
  let filterComplex :=
    joinComma
      ["fps=" ++ optQToString fps,
       "scale=" ++ qToString tileWidth ++ ":-1",
       "tile=" ++ optIntToString cols ++ "x" ++ optIntToString rows]
  let ext := jsOrS o.format "png"
  let dir := dirname o.input
  let name := stemOf o.input
  let outputPath := jsOrS o.output (pathJoin dir (name ++ "_grid." ++ ext))
  let args :=
    (if o.overwrite then ["-y"] else []) ++
    ["-hide_banner", "-i", o.input,
     "-vf", filterComplex,
     "-frames:v", "1"] ++
    [outputPath]
  ⟨args, outputPath⟩

/-- The `.check` validation of the thumbnail CLI command: only a
more-than-one mode selection is rejected. -/
def thumbnailCheckCLI (time : Option String) (count : Option JQ) (grid : Option String) :
    Except String Unit :=
  let modes := countTruthy [truthyS time, truthyN count, truthyS grid]
  if 1 < modes then .error "Can only specify one of: --time, --count, or --grid"
  else .ok ()

/-- Build-dispatch portion of the programmatic `thumbnail` function: no
mode validation is performed; grid takes priority over count over single;
single mode without a time defaults to half the probed duration. -/
def thumbnailProgBuild (o : ThumbnailOptions) (mediaInfo : Option MediaInfo) :
    BuildResult :=
  if truthyS o.grid then buildGridThumbnailArgs o mediaInfo
  else if truthyN o.count then buildMultipleThumbnailArgs o mediaInfo
  else
    let time :=
      if truthyS o.time = false then
        if truthyN (mediaInfo.bind (·.duration)) then
          some (qToString (qDiv ((mediaInfo.bind (·.duration)).getD 0) (qOfInt 2)))
        else o.time
      else o.time
    buildSingleThumbnailArgs { o with time := time }

/-! ## errors.ts -/

/-- A segment of one of the literal-with-gaps error regexes: a literal
run (matched case-insensitively) or a nonempty run of characters from a
class. -/
inductive Seg where
  | lit (s : String)
  | many1 (p : Char → Bool)

/-- Match a literal segment case-insensitively at the head, then continue. -/
def litPrefixMatch : List Char → List Char → (List Char → Bool) → Bool
  | [], l, k => k l
  | _ :: _, [], _ => false
  | a :: s, c :: l, k => (Char.toLower c = Char.toLower a) && litPrefixMatch s l k

/-- Match one-or-more class characters at the head, then continue,
with backtracking. -/
def many1Match (p : Char → Bool) : List Char → (List Char → Bool) → Bool
  | [], _ => false
  | c :: l, k => p c && (k l || many1Match p l k)

/-- Match a segment list at the head of the text. -/
def segsMatchHere : List Seg → List Char → Bool
  | [], _ => true
  | .lit s :: rest, l => litPrefixMatch s.data l (segsMatchHere rest)
  | .many1 p :: rest, l => many1Match p l (segsMatchHere rest)

/-- Match a segment list anywhere in the text (unanchored regex test). -/
def patTestAux (segs : List Seg) : List Char → Bool
  | [] => segsMatchHere segs []
  | c :: l => segsMatchHere segs (c :: l) || patTestAux segs l

/-- Model of `RegExp.test` for the error patterns. -/
def regexTest (segs : List Seg) (s : String) : Bool := patTestAux segs s.data

/-- Character class complement of the single quote. -/
def notQuote (c : Char) : Bool := !(c = Char.ofNat 39)

/-- Character class complement of the space. -/
def notSpace (c : Char) : Bool := !(c = ' ')

/-- One entry of the error pattern table. -/
structure ErrorPattern where
  pattern : List Seg
  message : String
  suggestion : String

/-- The priority-ordered `ERROR_PATTERNS` table. -/
def ERROR_PATTERNS : List ErrorPattern :=
  [⟨[.lit "No such file or directory"],
    "File not found", "Check if the input file path is correct"⟩,
   ⟨[.lit "Invalid data found when processing input"],
    "Corrupted or unsupported file",
    "The input file may be corrupted or in an unsupported format"⟩,
   ⟨[.lit "Permission denied"],
    "Permission denied", "Check if you have read/write permissions for the file"⟩,
   ⟨[.lit "already exists. Overwrite"],
    "Output file already exists", "Use --overwrite (-y) to replace the existing file"⟩,
   ⟨[.lit "Unknown encoder \x27", .many1 notQuote, .lit "\x27"],
    "Codec not available",
    "The requested codec is not installed. Try a different codec or install ffmpeg with full codec support"⟩,
   ⟨[.lit "Encoder ", .many1 notSpace, .lit " not found"],
    "Encoder not found", "The requested encoder is not available. Try a different codec"⟩,
   ⟨[.lit "Decoder ", .many1 notSpace, .lit " not found"],
    "Decoder not found", "Cannot decode the input file format. The codec may not be supported"⟩,
   ⟨[.lit "Could not write header"],
    "Cannot write to output", "Check if you have write permission and enough disk space"⟩,
   ⟨[.lit "Could not open file"],
    "Cannot open file", "Check file permissions and ensure the path is valid"⟩,
   ⟨[.lit "height not divisible by 2"],
    "Invalid resolution",
    "Video dimensions must be divisible by 2. Try a standard resolution like 720p or 1080p"⟩,
   ⟨[.lit "width not divisible by 2"],
    "Invalid resolution",
    "Video dimensions must be divisible by 2. Try a standard resolution like 720p or 1080p"⟩,
   ⟨[.lit "No space left on device"],
    "Disk full", "Free up disk space and try again"⟩,
   ⟨[.lit "Invalid argument"],
    "Invalid option value", "Check if all option values are correct"⟩,
   ⟨[.lit "Option ", .many1 notSpace, .lit " not found"],
    "Invalid option", "The specified option is not recognized"⟩,
   ⟨[.lit "Avi timescale is invalid"],
    "Invalid video timing", "Try setting a fixed frame rate with --fps 30"⟩,
   ⟨[.lit "Avi duration is invalid"],
    "Invalid video duration",
    "The input file may have timing issues. Try re-encoding with a fixed frame rate"⟩,
   ⟨[.lit "moov atom not found"],
    "Incomplete MP4 file",
    "The MP4 file appears to be incomplete or corrupted. It may have been interrupted during recording"⟩,
   ⟨[.lit "Stream map \x27", .many1 notQuote, .lit "\x27 matches no streams"],
    "Stream not found", "The specified stream doesn\x27t exist in the input file"⟩,
   ⟨[.lit "Output file is empty"],
    "Empty output", "No data was written. Check if the input has valid media streams"⟩,
   ⟨[.lit "At least one output file must be specified"],
    "Missing output file", "Please specify an output file path"⟩,
   ⟨[.lit "Avi format does not support"],
    "Format incompatibility",
    "The AVI format doesn\x27t support this feature. Try using MP4 or MKV instead"⟩,
   ⟨[.lit "Could not find codec parameters"],
    "Cannot read media info",
    "The input file\x27s codec information cannot be read. The file may be corrupted"⟩,
   ⟨[.lit "Too many packets buffered"],
    "Memory overflow",
    "The input file has sync issues. Try adding -max_muxing_queue_size 1024"⟩]

/-- `parseError`: first matching pattern wins, `none` when nothing
matches. -/
def parseError (stderr : String) : Option (String × String) :=
  (ERROR_PATTERNS.find? (fun ep => regexTest ep.pattern stderr)).map
    (fun ep => (ep.message, ep.suggestion))

/-- The keyword list of the fallback line scan in `formatError`. -/
def errorKeywords : List String :=
  ["Error", "error", "Invalid", "Cannot", "Could not", "No such", "not found"]

/-- First line of the diagnostic text containing a failure keyword. -/
def findErrorLine (stderr : String) : Option String :=
  (splitOnChar '\n' stderr).find?
    (fun line => errorKeywords.any (fun k => containsStr k line))

/-- Drop a leading lazily-matched bracketed component and following
whitespace, modelling the `^\[.*?\]\s*` replacement; a newline before the
closing bracket (impossible on split lines) blocks the match. -/
def dropThroughBracket : List Char → Option (List Char)
  | [] => none
  | c :: cs =>
    if c = ']' then some cs
    else if c = '\n' then none
    else dropThroughBracket cs

/-- Strip the `[component]` prefix of a diagnostic line. -/
def stripComponent (l : List Char) : List Char :=
  match l with
  | '[' :: rest =>
    match dropThroughBracket rest with
    | some r => r.dropWhile isJsWs
    | none => l
  | _ => l

/-- Model of JavaScript `String.trim`. -/
def trimStr (s : String) : String :=
  ⟨((s.data.dropWhile isJsWs).reverse.dropWhile isJsWs).reverse⟩

/-- The cleanup chain applied to the fallback error line. -/
def cleanLine (line : String) : String :=
  trimStr ⟨(stripComponent line.data).dropWhile isJsWs⟩

/-- The fixed generic failure message of `formatError`. -/
def genericErrorMessage : String :=
  "Error: Conversion failed. Run with --verbose for more details"

/-- `formatError`: classify ffmpeg diagnostic text into a display string. -/
def formatError (stderr : String) : String :=
  match parseError stderr with
  | some p => "Error: " ++ p.1 ++ "\n  → " ++ p.2
  | none =>
    match findErrorLine stderr with
    | some line =>
      let cleaned := cleanLine line
      if cleaned ≠ "" then "Error: " ++ cleaned
      else genericErrorMessage
    | none => genericErrorMessage

/-! ## merge (concat) -/

/-- Options of the merge command. -/
structure MergeOptions where
  inputs : List String
  output : String
  reencode : Bool := false
  overwrite : Bool := false
deriving DecidableEq

/-- `buildConcatDemuxerArgs`: fast concat through the concat demuxer. -/
def buildConcatDemuxerArgs (_inputs : List String) (output listFile : String)
    (overwrite : Bool) : List String :=
  (if overwrite then ["-y"] else []) ++
  ["-hide_banner", "-f", "concat", "-safe", "0", "-i", listFile, "-c", "copy", output]

/-- String concatenation of the accumulated filter parts. -/
def concatAll : List String → String
  | [] => ""
  | s :: rest => s ++ concatAll rest

/-- `buildConcatFilterArgs`: re-encoding concat through a filter graph. -/
def buildConcatFilterArgs (inputs : List String) (output : String)
    (overwrite : Bool) : List String :=
  let filterParts :=
    ((List.range inputs.length).map
      (fun i => "[" ++ natToString i ++ ":v][" ++ natToString i ++ ":a]")) ++
    ["concat=n=" ++ natToString inputs.length ++ ":v=1:a=1[outv][outa]"]
  (if overwrite then ["-y"] else []) ++
  ["-hide_banner"] ++
  (inputs.flatMap (fun input => ["-i", input])) ++
  ["-filter_complex", concatAll filterParts,
   "-map", "[outv]", "-map", "[outa]",
   "-c:v", "libx264", "-crf", "18", "-preset", "medium",
   "-c:a", "aac", "-b:a", "192k",
   output]

/-- Newline join of the file-list lines. -/
def joinNewline : List String → String
  | [] => ""
  | [x] => x
  | x :: rest => x ++ "\n" ++ joinNewline rest

/-- Content of the concat demuxer file list; `resolve` models
`path.resolve` and is supplied by the environment. -/
def createFileListContent (resolve : String → String) (inputs : List String) : String :=
  joinNewline (inputs.map (fun f => "file \x27" ++ resolve f ++ "\x27"))

/-- Name of the temporary file list. -/
def tempFileName (tmpdir : String) (now : ℕ) : String :=
  pathJoin tmpdir ("ffwrap_concat_" ++ natToString now ++ ".txt")

/-- A filesystem or process event performed by the merge operation. -/
inductive FsEvent where
  | create (path content : String)
  | invoke (args : List String)
  | delete (path : String)
deriving DecidableEq

/-- The `FfmpegResult` record of `runFfmpeg` in ffmpeg/index.ts.  The
invoker wraps the spawn in try/catch and on failure still resolves with
`error.exitCode ?? 1` and the captured streams, so it never throws and the
caller always observes this record. -/
structure FfmpegResult where
  exitCode : ℤ
  stdout : String
  stderr : String
deriving DecidableEq

/-- Result record of the programmatic `merge` function. -/
structure MergeOutcome where
  success : Bool
  outputPath : String
  error : Option String
deriving DecidableEq

/-- The programmatic `merge` function: filesystem answers, the temp-name
clock and the invocation result are explicit parameters, and the performed
events are returned as a trace.  The existence re-check before the unlink
always sees the file this function itself created. -/
def merge (o : MergeOptions) (inputExists : String → Bool) (outputExists : Bool)
    (resolve : String → String) (tmpdir : String) (now : ℕ) (res : FfmpegResult) :
    MergeOutcome × List FsEvent :=
  if o.inputs.length < 2 then
    (⟨false, "", some "At least 2 input files are required"⟩, [])
  else
    match o.inputs.find? (fun input => !inputExists input) with
    | some input => (⟨false, "", some ("File not found: " ++ input)⟩, [])
    | none =>
      if outputExists && !o.overwrite then
        (⟨false, o.output,
          some "Output file already exists. Set overwrite: true to replace it."⟩, [])
      else if o.reencode then
        let args := buildConcatFilterArgs o.inputs o.output o.overwrite
        ((if res.exitCode = 0 then ⟨true, o.output, none⟩
          else ⟨false, o.output, some (formatError res.stderr)⟩),
         [.invoke args])
      else
        let listFile := tempFileName tmpdir now
        let args := buildConcatDemuxerArgs o.inputs o.output listFile o.overwrite
        ((if res.exitCode = 0 then ⟨true, o.output, none⟩
          else ⟨false, o.output, some (formatError res.stderr)⟩),
         [.create listFile (createFileListContent resolve o.inputs),
          .invoke args,
          .delete listFile])

/-! ## Theorems -/

theorem toRat_num (a : JQ) : (toRat a).num = a.n := rfl

theorem toRat_den (a : JQ) : (toRat a).den = a.d := rfl

theorem toRat_eq_div (a : JQ) : toRat a = (a.n : ℚ) / (a.d : ℚ) := by
  rw [← toRat_num a, ← toRat_den a, Rat.num_div_den]

theorem toRat_inj {a b : JQ} (h : toRat a = toRat b) : a = b := by
  have h1 := congrArg Rat.num h
  have h2 := congrArg Rat.den h
  rw [toRat_num, toRat_num] at h1
  rw [toRat_den, toRat_den] at h2
  cases a; cases b; simp_all

theorem toRat_ofInt (i : ℤ) : toRat (qOfInt i) = (i : ℚ) := by
  rw [toRat_eq_div]; simp [qOfInt]

theorem toRat_ofNat (k : ℕ) : toRat (OfNat.ofNat k : JQ) = (k : ℚ) := by
  show toRat (qOfInt k) = _
  rw [toRat_ofInt]; norm_num

theorem qNormalize_val (num den : ℤ) (h : den ≠ 0) :
    toRat (qNormalize num den) = (num : ℚ) / (den : ℚ) := by
  have hddp : 0 < den.natAbs := Int.natAbs_pos.mpr h
  have hg : 0 < Nat.gcd num.natAbs den.natAbs :=
    Nat.gcd_pos_of_pos_right _ hddp
  have hgQ : ((Nat.gcd num.natAbs den.natAbs : ℕ) : ℚ) ≠ 0 := by positivity
  have hdQ : (den : ℚ) ≠ 0 := by exact_mod_cast h
  have h1 : ((num.natAbs / Nat.gcd num.natAbs den.natAbs : ℕ) : ℚ)
      = (num.natAbs : ℚ) / (Nat.gcd num.natAbs den.natAbs : ℚ) :=
    Nat.cast_div (Nat.gcd_dvd_left _ _) hgQ
  have h2 : ((den.natAbs / Nat.gcd num.natAbs den.natAbs : ℕ) : ℚ)
      = (den.natAbs : ℚ) / (Nat.gcd num.natAbs den.natAbs : ℚ) :=
    Nat.cast_div (Nat.gcd_dvd_right _ _) hgQ
  rw [qNormalize, dif_neg h, toRat_eq_div]
  by_cases hn : num < 0 <;> by_cases hd : den < 0
  · have hcond : ((decide (num < 0)) != (decide (den < 0))) = false := by simp [hn, hd]
    simp only [hcond, Bool.false_eq_true, if_false]
    rw [Int.cast_natCast, h1, h2, Int.cast_natAbs, Int.cast_natAbs, Int.cast_abs, Int.cast_abs,
      abs_of_neg (show (num : ℚ) < 0 by exact_mod_cast hn),
      abs_of_neg (show (den : ℚ) < 0 by exact_mod_cast hd)]
    field_simp
    ring
  · have hcond : ((decide (num < 0)) != (decide (den < 0))) = true := by simp [hn, hd]
    simp only [hcond, if_true]
    rw [Int.cast_neg, Int.cast_natCast, h1, h2, Int.cast_natAbs, Int.cast_natAbs, Int.cast_abs, Int.cast_abs,
      abs_of_neg (show (num : ℚ) < 0 by exact_mod_cast hn),
      abs_of_nonneg (show (0:ℚ) ≤ (den : ℚ) by exact_mod_cast not_lt.mp hd)]
    field_simp
  · have hcond : ((decide (num < 0)) != (decide (den < 0))) = true := by simp [hn, hd]
    simp only [hcond, if_true]
    rw [Int.cast_neg, Int.cast_natCast, h1, h2, Int.cast_natAbs, Int.cast_natAbs, Int.cast_abs, Int.cast_abs,
      abs_of_nonneg (show (0:ℚ) ≤ (num : ℚ) by exact_mod_cast not_lt.mp hn),
      abs_of_neg (show (den : ℚ) < 0 by exact_mod_cast hd)]
    field_simp
    ring
  · have hcond : ((decide (num < 0)) != (decide (den < 0))) = false := by simp [hn, hd]
    simp only [hcond, Bool.false_eq_true, if_false]
    rw [Int.cast_natCast, h1, h2, Int.cast_natAbs, Int.cast_natAbs, Int.cast_abs, Int.cast_abs,
      abs_of_nonneg (show (0:ℚ) ≤ (num : ℚ) by exact_mod_cast not_lt.mp hn),
      abs_of_nonneg (show (0:ℚ) ≤ (den : ℚ) by exact_mod_cast not_lt.mp hd)]
    field_simp

theorem jq_dInt_ne (a : JQ) : ((a.d : ℕ) : ℤ) ≠ 0 := by
  have := a.dPos
  omega

theorem jq_dQ_pos (a : JQ) : (0 : ℚ) < ((a.d : ℕ) : ℚ) := by
  have := a.dPos
  positivity

theorem toRat_add (a b : JQ) : toRat (qAdd a b) = toRat a + toRat b := by
  rw [qAdd, qNormalize_val _ _ (mul_ne_zero (jq_dInt_ne a) (jq_dInt_ne b)),
    toRat_eq_div, toRat_eq_div]
  have ha := (jq_dQ_pos a).ne'
  have hb := (jq_dQ_pos b).ne'
  push_cast
  field_simp

theorem toRat_sub (a b : JQ) : toRat (qSub a b) = toRat a - toRat b := by
  rw [qSub, qNormalize_val _ _ (mul_ne_zero (jq_dInt_ne a) (jq_dInt_ne b)),
    toRat_eq_div, toRat_eq_div]
  have ha := (jq_dQ_pos a).ne'
  have hb := (jq_dQ_pos b).ne'
  push_cast
  field_simp
  ring

theorem toRat_mul (a b : JQ) : toRat (qMul a b) = toRat a * toRat b := by
  rw [qMul, qNormalize_val _ _ (mul_ne_zero (jq_dInt_ne a) (jq_dInt_ne b)),
    toRat_eq_div, toRat_eq_div]
  have ha := (jq_dQ_pos a).ne'
  have hb := (jq_dQ_pos b).ne'
  push_cast
  field_simp

theorem toRat_zero_iff (a : JQ) : toRat a = 0 ↔ a.n = 0 := by
  rw [toRat_eq_div, div_eq_zero_iff]
  have := (jq_dQ_pos a).ne'
  simp_all [Int.cast_eq_zero]

theorem toRat_div (a b : JQ) (hb : b.n ≠ 0) : toRat (qDiv a b) = toRat a / toRat b := by
  have hbz : ((b.n : ℤ) : ℚ) ≠ 0 := by exact_mod_cast hb
  rw [qDiv, qNormalize_val _ _ (mul_ne_zero (jq_dInt_ne a) hb),
    toRat_eq_div, toRat_eq_div]
  have ha := (jq_dQ_pos a).ne'
  have hb2 := (jq_dQ_pos b).ne'
  push_cast
  field_simp

theorem qLtB_iff (a b : JQ) : qLtB a b = true ↔ toRat a < toRat b := by
  rw [qLtB, decide_eq_true_eq, toRat_eq_div, toRat_eq_div,
    div_lt_div_iff₀ (jq_dQ_pos a) (jq_dQ_pos b)]
  exact_mod_cast Iff.rfl

theorem qLeB_iff (a b : JQ) : qLeB a b = true ↔ toRat a ≤ toRat b := by
  rw [qLeB, decide_eq_true_eq, toRat_eq_div, toRat_eq_div,
    div_le_div_iff₀ (jq_dQ_pos a) (jq_dQ_pos b)]
  exact_mod_cast Iff.rfl

theorem toRat_max (a b : JQ) : toRat (qMax a b) = max (toRat a) (toRat b) := by
  rw [qMax]
  by_cases h : qLtB a b = true
  · rw [if_pos h, max_eq_right (le_of_lt ((qLtB_iff a b).mp h))]
  · have h2 : ¬ toRat a < toRat b := fun hc => h ((qLtB_iff a b).mpr hc)
    rw [if_neg h, max_eq_left (not_lt.mp h2)]

theorem qFloor_eq (a : JQ) : qFloor a = ⌊toRat a⌋ := by
  rw [qFloor, Rat.floor_def, toRat_num, toRat_den,
    Int.fdiv_eq_ediv _ (by positivity)]

/-- Claim C1: for every target size in bytes, every duration strictly greater
than zero, and every audio bitrate (128000 bits per second when unspecified),
the size-targeting bitrate calculator returns a video bitrate equal to
max(100000, target_bytes * 8 / duration * 0.95 - audio_bitrate), and is
therefore always at least 100000 bits per second. -/
theorem C1_calculateBitrate_formula (targetBytes duration audioBitrate : JQ)
    (hd : 0 < toRat duration) :
    toRat (calculateBitrate targetBytes duration audioBitrate)
      = max 100000 (toRat targetBytes * 8 / toRat duration * 0.95 - toRat audioBitrate)
    ∧ toRat (calculateBitrate targetBytes duration)
      = max 100000 (toRat targetBytes * 8 / toRat duration * 0.95 - 128000)
    ∧ (100000 : ℚ) ≤ toRat (calculateBitrate targetBytes duration audioBitrate) := by
  have hdn : duration.n ≠ 0 := by
    intro h0
    rw [← toRat_zero_iff] at h0
    exact absurd h0 (ne_of_gt hd)
  have key : ∀ ab : JQ,
      toRat (calculateBitrate targetBytes duration ab)
        = max 100000 (toRat targetBytes * 8 / toRat duration * 0.95 - toRat ab) := by
    intro ab
    rw [calculateBitrate]
    rw [toRat_max, toRat_sub, toRat_mul, toRat_div _ _ hdn, toRat_mul,
      qNormalize_val 95 100 (by norm_num), toRat_ofInt, toRat_ofInt]
    rw [max_comm]
    norm_num
  refine ⟨key audioBitrate, ?_, ?_⟩
  · rw [show calculateBitrate targetBytes duration
        = calculateBitrate targetBytes duration (qOfInt 128000) from rfl, key (qOfInt 128000),
      toRat_ofInt]
    norm_num
  · rw [key audioBitrate]
    exact le_max_left _ _

/-- Witness for C1 at target size 26214400 bytes, duration 100 seconds and
audio bitrate 128000. -/
theorem C1_witness :
    (100000 : ℚ) ≤ toRat (calculateBitrate (qOfInt 26214400) (qOfInt 100) (qOfInt 128000)) :=
  (C1_calculateBitrate_formula (qOfInt 26214400) (qOfInt 100) (qOfInt 128000)
    (by rw [toRat_ofInt]; norm_num)).2.2

/-- Claim C6: thumbnail grid mode with grid 4x4 and probed duration 100
derives the frame rate (4*4)/100 = 0.16, and the built argument list carries
the filter fps=0.16,scale=320:-1,tile=4x4 and limits video frames to 1. -/
theorem C6_grid_thumbnail_fps :
    qToString (qDiv (qOfInt (4 * 4)) (qOfInt 100)) = "0.16"
    ∧ buildGridThumbnailArgs { input := "video.mp4", grid := some "4x4" }
        (some { duration := some (qOfInt 100) })
      = ⟨["-hide_banner", "-i", "video.mp4",
          "-vf", "fps=0.16,scale=320:-1,tile=4x4",
          "-frames:v", "1", "video_grid.png"], "video_grid.png"⟩ := by
  constructor
  · decide
  · decide

/-- Claim C5: merging a.mp4 and b.mp4 without the re-encode flag yields the
consecutive tokens -f concat -safe 0 -i listfile -c copy output; with the
re-encode flag the argument list instead carries a -filter_complex token
whose value references concat=n=2:v=1:a=1. -/
theorem C5_merge_argument_shapes (listFile output : String) (overwrite : Bool) :
    ["-f", "concat", "-safe", "0", "-i", listFile, "-c", "copy", output]
      <:+: buildConcatDemuxerArgs ["a.mp4", "b.mp4"] output listFile overwrite
    ∧ ["-filter_complex", "[0:v][0:a][1:v][1:a]concat=n=2:v=1:a=1[outv][outa]"]
      <:+: buildConcatFilterArgs ["a.mp4", "b.mp4"] output overwrite
    ∧ containsStr "concat=n=2:v=1:a=1"
        "[0:v][0:a][1:v][1:a]concat=n=2:v=1:a=1[outv][outa]" = true := by
  refine ⟨?_, ?_, by decide⟩
  · have h : buildConcatDemuxerArgs ["a.mp4", "b.mp4"] output listFile overwrite
        = ((if overwrite then ["-y"] else []) ++ ["-hide_banner"])
          ++ ["-f", "concat", "-safe", "0", "-i", listFile, "-c", "copy", output] ++ [] := by
      cases overwrite <;> rfl
    rw [h]
    exact ⟨_, _, rfl⟩
  · have h : buildConcatFilterArgs ["a.mp4", "b.mp4"] output overwrite
        = ((if overwrite then ["-y"] else []) ++ ["-hide_banner", "-i", "a.mp4", "-i", "b.mp4"])
          ++ ["-filter_complex", "[0:v][0:a][1:v][1:a]concat=n=2:v=1:a=1[outv][outa]"]
          ++ ["-map", "[outv]", "-map", "[outa]", "-c:v", "libx264", "-crf", "18",
              "-preset", "medium", "-c:a", "aac", "-b:a", "192k", output] := by
      cases overwrite <;> rfl
    rw [h]
    exact ⟨_, _, rfl⟩

/-- Counterexample to C2: on the programmatic surface, the compress operation
with both a target size and a bitrate supplied is not rejected; the mode
validation passes and a complete argument list is built (with the target-size
mode taking priority). -/
theorem C2_counterexample :
    compressProg { input := "v.mp4", targetSize := some "25MB", bitrate := some "2M" }
      (some { duration := some (qOfInt 100) }) (qOfInt 0)
    = .ok ⟨["-hide_banner", "-i", "v.mp4", "-c:v", "libx264", "-b:v", "1.9M",
            "-maxrate", "2.8M", "-bufsize", "3.7M", "-preset", "medium",
            "-c:a", "aac", "-b:a", "128k", "v_compressed.mp4"],
           "v_compressed.mp4", some (qNormalize 9321472 5)⟩ := by
  decide

theorem strData_append (a b : String) : (a ++ b).data = a.data ++ b.data := by
  cases a; cases b; rfl

theorem splitLast_some {c : Char} :
    ∀ {l p s : List Char}, splitLast c l = some (p, s) → l = p ++ c :: s := by
  intro l
  induction l with
  | nil => intro p s h; simp [splitLast] at h
  | cons a rest ih =>
    intro p s h
    rw [splitLast] at h
    cases hr : splitLast c rest with
    | some pr =>
      obtain ⟨p2, s2⟩ := pr
      rw [hr] at h
      simp only [Option.some.injEq, Prod.mk.injEq] at h
      obtain ⟨hp, hs⟩ := h
      subst hs
      rw [← hp]
      simp [ih hr]
    | none =>
      rw [hr] at h
      by_cases hac : a = c
      · rw [if_pos hac] at h
        simp only [Option.some.injEq, Prod.mk.injEq] at h
        obtain ⟨hp, hs⟩ := h
        subst hs
        rw [← hp, hac]
        simp
      · rw [if_neg hac] at h
        simp at h

theorem extSplit_append (b : List Char) : (extSplit b).1 ++ (extSplit b).2 = b := by
  rw [extSplit]
  cases h : splitLast '.' b with
  | none => simp
  | some pr =>
    obtain ⟨p, s⟩ := pr
    cases p with
    | nil => simp
    | cons x xs => simpa using (splitLast_some h).symm

theorem pathJoin_dirname_ne (input x : String)
    (hx : (basenameStr input).data.length + 10 ≤ x.data.length) :
    pathJoin (dirname input) x ≠ input := by
  intro heq
  cases hsp : splitLast (Char.ofNat 47) input.data with
  | none =>
    have hd : dirname input = "." := by rw [dirname, hsp]
    have hb : basenameStr input = input := by rw [basenameStr, hsp]
    rw [hd, pathJoin, if_pos rfl] at heq
    rw [hb] at hx
    rw [heq] at hx
    omega
  | some pr =>
    obtain ⟨p, s⟩ := pr
    have hdata : input.data = p ++ Char.ofNat 47 :: s := splitLast_some hsp
    have hb : (basenameStr input).data = s := by rw [basenameStr, hsp]
    rw [hb] at hx
    have hlen_input : input.data.length = p.length + 1 + s.length := by
      rw [hdata]; simp; omega
    cases p with
    | nil =>
      have hd : dirname input = "/" := by rw [dirname, hsp]
      rw [hd, pathJoin, if_neg (by decide), if_pos rfl] at heq
      have hlen := congrArg (fun t : String => t.data.length) heq
      simp only [strData_append, List.length_append] at hlen
      have : ("/" : String).data.length = 1 := by decide
      simp only [List.length_nil] at hlen_input
      omega
    | cons a as =>
      have hd : dirname input = ⟨a :: as⟩ := by rw [dirname, hsp]
      rw [hd, pathJoin] at heq
      by_cases h1 : (⟨a :: as⟩ : String) = "."
      · rw [if_pos h1] at heq
        have hp1 : (a :: as).length = 1 := by
          have := congrArg String.data h1
          simp at this
          simp [this]
        have hlen := congrArg (fun t : String => t.data.length) heq
        simp only at hlen
        omega
      · by_cases h2 : (⟨a :: as⟩ : String) = "/"
        · rw [if_neg h1, if_pos h2] at heq
          have hp1 : (a :: as).length = 1 := by
            have := congrArg String.data h2
            simp at this
            simp [this]
          have hlen := congrArg (fun t : String => t.data.length) heq
          simp only [strData_append, List.length_append] at hlen
          have : ("/" : String).data.length = 1 := by decide
          omega
        · rw [if_neg h1, if_neg h2] at heq
          have hlen := congrArg (fun t : String => t.data.length) heq
          simp only [strData_append, List.length_append] at hlen
          have hmk : (String.mk (a :: as)).data.length = (a :: as).length := rfl
          have : ("/" : String).data.length = 1 := by decide
          omega

/-- Claim C3: output path resolution is deterministic: an explicit output is
used verbatim; with a target extension different from the input extension the
resolver yields stem.targetExtension in the input directory (so a.mp4 with
target mkv yields a.mkv); with an equal extension it appends the _converted
suffix and the result is distinct from the input path. -/
theorem C3_output_path_resolution :
    (∀ (o : ConvertOptions) (out : String), o.output = some out → out ≠ "" →
      (buildConvertArgs o).outputPath = out)
    ∧ generateOutputPath "a.mp4" "mkv" = "a.mkv"
    ∧ (∀ input ext : String, extNoDotLower input ≠ ext →
      generateOutputPath input ext
        = pathJoin (dirname input) (stemOf input ++ "." ++ ext))
    ∧ (∀ input ext : String, extNoDotLower input = ext →
      generateOutputPath input ext
        = pathJoin (dirname input) (stemOf input ++ "_converted." ++ ext)
      ∧ generateOutputPath input ext ≠ input) := by
  refine ⟨?_, by decide, ?_, ?_⟩
  · intro o out ho hne
    simp only [buildConvertArgs]
    rw [ho]
    simp [jsOrS, truthyS, hne]
  · intro input ext h
    simp [generateOutputPath, h]
  · intro input ext h
    refine ⟨by simp [generateOutputPath, h], ?_⟩
    have hres : generateOutputPath input ext
        = pathJoin (dirname input) (stemOf input ++ "_converted." ++ ext) := by
      simp [generateOutputPath, h]
    rw [hres]
    apply pathJoin_dirname_ne
    have hext : ext.data.length + 1
        = (extSplit (basenameStr input).data).2.length
        ∨ ((extSplit (basenameStr input).data).2.length = 0 ∧ ext.data.length = 0) := by
      have hdata : ext.data
          = ((extSplit (basenameStr input).data).2.drop 1).map Char.toLower := by
        rw [← h]
        rfl
      have hlen : ext.data.length = (extSplit (basenameStr input).data).2.length - 1 := by
        rw [hdata]
        simp
      rcases Nat.eq_zero_or_pos (extSplit (basenameStr input).data).2.length with h0 | hpos
      · right
        exact ⟨h0, by omega⟩
      · left
        omega
    have hsplit := extSplit_append (basenameStr input).data
    have hbl : (basenameStr input).data.length
        = (extSplit (basenameStr input).data).1.length
          + (extSplit (basenameStr input).data).2.length := by
      conv_lhs => rw [← hsplit]
      simp
    have hx : (stemOf input ++ "_converted." ++ ext).data.length
        = (extSplit (basenameStr input).data).1.length + 11 + ext.data.length := by
      simp only [strData_append, List.length_append, List.length_cons, List.length_nil]
      have h1 : (stemOf input).data.length = (extSplit (basenameStr input).data).1.length := rfl
      omega
    omega

/-- Counterexample to C4: the programmatic trim surface accepts an invocation
carrying both an end time and a duration and returns an argument list
containing both the -to and the -t flag. -/
theorem C4_counterexample :
    trimProg { input := "v.mp4", endTime := some "10", duration := some "5" }
    = .ok ⟨["-hide_banner", "-i", "v.mp4", "-to", "10", "-t", "5", "-c:v", "libx264",
            "-crf", "18", "-preset", "medium", "-c:a", "aac", "-b:a", "192k",
            "-avoid_negative_ts", "make_zero", "v_trimmed.mp4"], "v_trimmed.mp4"⟩ := by
  decide

/-- Claim C4 as amended: only the trim CLI option check rejects supplying the
end time and the duration together; the trim and convert builders perform no
such validation and emit both the -to and the -t flag, and the programmatic
trim surface accepts the combination. -/
theorem C4_end_duration_exclusivity :
    (∀ start endTime duration : Option String,
      truthyS endTime = true → truthyS duration = true →
      trimCheckCLI start endTime duration
        = .error "Cannot use both --end and --duration together")
    ∧ (∀ o : TrimOptions, truthyS o.endTime = true → truthyS o.duration = true →
      trimProg o = .ok (buildTrimArgs o)
      ∧ ["-to", o.endTime.getD "", "-t", o.duration.getD ""] <:+: (buildTrimArgs o).args)
    ∧ (∀ o : ConvertOptions, truthyS o.endTime = true → truthyS o.duration = true →
      "-to" ∈ (buildConvertArgs o).args ∧ "-t" ∈ (buildConvertArgs o).args) := by
  refine ⟨?_, ?_, ?_⟩
  · intro s e d he hd
    rw [trimCheckCLI]
    rw [he, hd]
    simp
  · intro o he hd
    constructor
    · rw [trimProg, he]
      simp
    · have h : (buildTrimArgs o).args
          = ((if o.overwrite then ["-y"] else []) ++ ["-hide_banner"]
              ++ (if truthyS o.startTime then ["-ss", o.startTime.getD ""] else [])
              ++ ["-i", o.input])
            ++ ["-to", o.endTime.getD "", "-t", o.duration.getD ""]
            ++ ((if o.copy then ["-c", "copy"]
                 else ["-c:v", "libx264", "-crf", "18", "-preset", "medium",
                       "-c:a", "aac", "-b:a", "192k"])
               ++ ["-avoid_negative_ts", "make_zero"]
               ++ [(buildTrimArgs o).outputPath]) := by
        simp [buildTrimArgs, he, hd]
      rw [h]
      exact ⟨_, _, rfl⟩
  · intro o he hd
    constructor
    · simp [buildConvertArgs, he, hd]
    · simp [buildConvertArgs, he, hd]

/-- Claim C2 as amended: the compress and extract CLI checks reject zero and
more-than-one active modes, the thumbnail CLI check rejects only
more-than-one (zero modes selects the single-thumbnail default); on the
programmatic surface compress and extract reject only zero active modes and
thumbnail performs no mode validation, the builders resolving several active
modes by fixed priority and returning a complete argument list. -/
theorem C2_mode_exclusivity :
    (∀ (ts b : Option String) (p : Option JQ),
      (countTruthy [truthyS ts, truthyS b, truthyN p] = 0 →
        compressCheckCLI ts b p
          = .error "Must specify one of: --target-size, --bitrate, or --percent")
      ∧ (1 < countTruthy [truthyS ts, truthyS b, truthyN p] →
        compressCheckCLI ts b p
          = .error "Can only specify one of: --target-size, --bitrate, or --percent"))
    ∧ (∀ audio video frames : Option Bool,
      (countTruthy [truthyB audio, truthyB video, truthyB frames] = 0 →
        extractCheckCLI audio video frames
          = .error "Must specify one of: --audio, --video, or --frames")
      ∧ (1 < countTruthy [truthyB audio, truthyB video, truthyB frames] →
        extractCheckCLI audio video frames
          = .error "Can only specify one of: --audio, --video, or --frames"))
    ∧ (∀ (t : Option String) (c : Option JQ) (g : Option String),
      (1 < countTruthy [truthyS t, truthyN c, truthyS g] →
        thumbnailCheckCLI t c g
          = .error "Can only specify one of: --time, --count, or --grid")
      ∧ (countTruthy [truthyS t, truthyN c, truthyS g] = 0 →
        thumbnailCheckCLI t c g = .ok ()))
    ∧ (∀ (o : CompressOptions) (mi : Option MediaInfo) (sz : JQ),
      (countTruthy [truthyS o.targetSize, truthyS o.bitrate, truthyN o.percent] = 0 →
        compressProg o mi sz = .error "Must specify targetSize, bitrate, or percent")
      ∧ (countTruthy [truthyS o.targetSize, truthyS o.bitrate, truthyN o.percent] ≠ 0 →
        compressProg o mi sz = buildCompressArgs o mi sz))
    ∧ (∀ o : ExtractOptions,
      (countTruthy [truthyB o.audio, truthyB o.video, truthyB o.frames] = 0 →
        extractProg o = .error "Must specify audio, video, or frames")
      ∧ (truthyB o.audio = true → extractProg o = .ok (buildAudioExtractArgs o)))
    ∧ (∀ (o : ThumbnailOptions) (mi : Option MediaInfo),
      truthyS o.grid = true → thumbnailProgBuild o mi = buildGridThumbnailArgs o mi) := by
  refine ⟨?_, ?_, ?_, ?_, ?_, ?_⟩
  · intro ts b p
    constructor
    · intro h
      simp [compressCheckCLI, h]
    · intro h
      have h0 : countTruthy [truthyS ts, truthyS b, truthyN p] ≠ 0 := by omega
      simp [compressCheckCLI, h0, h]
  · intro a v f
    constructor
    · intro h
      simp [extractCheckCLI, h]
    · intro h
      have h0 : countTruthy [truthyB a, truthyB v, truthyB f] ≠ 0 := by omega
      simp [extractCheckCLI, h0, h]
  · intro t c g
    constructor
    · intro h
      simp [thumbnailCheckCLI, h]
    · intro h
      have h0 : ¬ 1 < countTruthy [truthyS t, truthyN c, truthyS g] := by omega
      simp [thumbnailCheckCLI, h0]
  · intro o mi sz
    constructor
    · intro h
      simp [compressProg, h]
    · intro h
      simp [compressProg, h]
  · intro o
    constructor
    · intro h
      simp [extractProg, h]
    · intro h
      have hc : countTruthy [true, truthyB o.video, truthyB o.frames] ≠ 0 := by
        rw [countTruthy]
        simp [List.filter]
      simp [extractProg, hc, h]
  · intro o mi h
    simp [thumbnailProgBuild, h]

/-- Witness for C2 as amended: the programmatic thumbnail dispatch with the
grid mode set builds the grid arguments directly. -/
theorem C2_witness :
    thumbnailProgBuild { input := "v.mp4", grid := some "3x3", count := some (qOfInt 4) } none
      = buildGridThumbnailArgs { input := "v.mp4", grid := some "3x3", count := some (qOfInt 4) }
          none :=
  (C2_mode_exclusivity.2.2.2.2.2
    { input := "v.mp4", grid := some "3x3", count := some (qOfInt 4) } none (by decide))

/-- Witness for C3 at a.mp4 with equal target extension mp4: the resolver
appends the _converted suffix and avoids the input path. -/
theorem C3_witness :
    generateOutputPath "a.mp4" "mp4"
      = pathJoin (dirname "a.mp4") (stemOf "a.mp4" ++ "_converted." ++ "mp4")
    ∧ generateOutputPath "a.mp4" "mp4" ≠ "a.mp4" :=
  C3_output_path_resolution.2.2.2 "a.mp4" "mp4" (by decide)

/-- Witness for C4 as amended at concrete end and duration values. -/
theorem C4_witness :
    trimCheckCLI none (some "10") (some "5")
      = .error "Cannot use both --end and --duration together" :=
  C4_end_duration_exclusivity.1 none (some "10") (some "5") (by decide) (by decide)

/-- Counterexample to C7: the thumbnail multiple-mode builder with no probed
duration does not fail; it builds a complete argument list from the 60-second
default (6 frames over 60 seconds giving fps=0.1). -/
theorem C7_counterexample :
    buildMultipleThumbnailArgs { input := "v.mp4", count := some (qOfInt 6) } none
    = ⟨["-hide_banner", "-i", "v.mp4", "-vf", "fps=0.1", "-frames:v", "6",
        "v_thumb_%02d.png"], "v_thumb_%02d.png"⟩ := by
  decide

/-- Claim C7 as amended: the compress builder fails with the
cannot-determine-duration error whenever the probed duration is missing or
zero, in every mode; the thumbnail multiple and grid builders instead fall
back to a 60-second default duration and still return a build result. -/
theorem C7_missing_duration :
    (∀ (o : CompressOptions) (mi : Option MediaInfo) (sz : JQ),
      truthyN (mi.bind (·.duration)) = false →
      buildCompressArgs o mi sz = .error "Could not determine video duration")
    ∧ (∀ (o : ThumbnailOptions) (mi : Option MediaInfo),
      truthyN (mi.bind (·.duration)) = false →
      buildMultipleThumbnailArgs o mi
        = buildMultipleThumbnailArgs o (some { duration := some (qOfInt 60) })
      ∧ buildGridThumbnailArgs o mi
        = buildGridThumbnailArgs o (some { duration := some (qOfInt 60) })) := by
  constructor
  · intro o mi sz h
    simp [buildCompressArgs, h]
  · intro o mi h
    have e1 : jsOrN (Option.bind mi (·.duration)) (qOfInt 60) = qOfInt 60 := by
      simp [jsOrN, h]
    have e2 : jsOrN (Option.bind
        (some ({ duration := some (qOfInt 60) } : MediaInfo)) (·.duration))
        (qOfInt 60) = qOfInt 60 := by
      decide
    constructor
    · simp only [buildMultipleThumbnailArgs, e1, e2]
    · simp only [buildGridThumbnailArgs, e1, e2]

/-- Witness for C7 as amended: the compress builder at a zero probed duration
returns the cannot-determine-duration error. -/
theorem C7_witness :
    buildCompressArgs { input := "v.mp4", targetSize := some "25MB" }
      (some { duration := some (qOfInt 0) }) (qOfInt 0)
    = .error "Could not determine video duration" :=
  C7_missing_duration.1 { input := "v.mp4", targetSize := some "25MB" }
    (some { duration := some (qOfInt 0) }) (qOfInt 0) (by decide)

theorem find_first_index {α : Type} (p : α → Bool) :
    ∀ (l : List α) (i : ℕ) (hi : i < l.length),
      p (l.get ⟨i, hi⟩) = true →
      (∀ j (hj : j < i), p (l.get ⟨j, Nat.lt_trans hj hi⟩) = false) →
      l.find? p = some (l.get ⟨i, hi⟩) := by
  intro l
  induction l with
  | nil => intro i hi; simp at hi
  | cons a t ih =>
    intro i hi hp hj
    cases i with
    | zero =>
      have hget : (a :: t).get ⟨0, hi⟩ = a := rfl
      rw [hget] at hp ⊢
      rw [List.find?_cons_of_pos _ hp]
    | succ k =>
      have ha : p a = false := by
        have := hj 0 (Nat.succ_pos k)
        simpa using this
      have hk : k < t.length := by simpa using hi
      have hget : (a :: t).get ⟨k + 1, hi⟩ = t.get ⟨k, hk⟩ := rfl
      rw [hget] at hp ⊢
      rw [List.find?_cons_of_neg _ (by simp [ha])]
      refine ih k hk hp ?_
      intro j hjk
      have := hj (j + 1) (by omega)
      simpa using this

/-- Claim C8: the error classifier returns the message-suggestion pair of the
first pattern in its priority-ordered table that matches; unmatched text
falls back to the first line containing a failure keyword, stripped of a
leading bracketed component prefix; when that scan yields nothing the fixed
generic failure message is returned.  The classifier is a total function. -/
theorem C8_error_classifier :
    (∀ (s : String) (i : ℕ) (hi : i < ERROR_PATTERNS.length),
      regexTest (ERROR_PATTERNS.get ⟨i, hi⟩).pattern s = true →
      (∀ j (hj : j < i),
        regexTest (ERROR_PATTERNS.get ⟨j, Nat.lt_trans hj hi⟩).pattern s = false) →
      parseError s
        = some ((ERROR_PATTERNS.get ⟨i, hi⟩).message, (ERROR_PATTERNS.get ⟨i, hi⟩).suggestion))
    ∧ (∀ s : String, (∀ ep ∈ ERROR_PATTERNS, regexTest ep.pattern s = false) →
      parseError s = none)
    ∧ (∀ s line : String, parseError s = none → findErrorLine s = some line →
      cleanLine line ≠ "" → formatError s = "Error: " ++ cleanLine line)
    ∧ (∀ s : String, parseError s = none → findErrorLine s = none →
      formatError s = genericErrorMessage) := by
  refine ⟨?_, ?_, ?_, ?_⟩
  · intro s i hi hp hj
    rw [parseError,
      find_first_index (fun ep => regexTest ep.pattern s) ERROR_PATTERNS i hi hp hj]
    rfl
  · intro s h
    rw [parseError, List.find?_eq_none.mpr]
    · rfl
    · intro ep hep
      simp [h ep hep]
  · intro s line hp hl hc
    rw [formatError, hp, hl]
    simp [hc]
  · intro s hp hl
    rw [formatError, hp, hl]

/-- Witness for C8: the disk-full diagnostic matches its table entry, and
unclassifiable text falls through to the generic message. -/
theorem C8_witness :
    parseError "No space left on device"
      = some ("Disk full", "Free up disk space and try again")
    ∧ formatError "xyz" = genericErrorMessage := by
  constructor
  · exact C8_error_classifier.1 "No space left on device" 11 (by decide) (by decide)
      (by decide)
  · exact C8_error_classifier.2.2.2 "xyz" (by decide) (by decide)

/-- Claim C9: in demuxer (non-re-encode) mode, the merge operation creates
the newline-delimited list file before the external invocation and deletes it
afterwards regardless of the exit code; across all of merge, every created
path is later deleted, so no list file is leaked. -/
theorem C9_merge_listfile_lifecycle (o : MergeOptions) (inputExists : String → Bool)
    (outputExists : Bool) (resolve : String → String) (tmpdir : String) (now : ℕ)
    (res : FfmpegResult) :
    (∀ p c,
      FsEvent.create p c ∈ (merge o inputExists outputExists resolve tmpdir now res).2 →
      FsEvent.delete p ∈ (merge o inputExists outputExists resolve tmpdir now res).2)
    ∧ (o.reencode = false → 2 ≤ o.inputs.length →
       (∀ i ∈ o.inputs, inputExists i = true) →
       (outputExists && !o.overwrite) = false →
       (merge o inputExists outputExists resolve tmpdir now res).2
         = [.create (tempFileName tmpdir now) (createFileListContent resolve o.inputs),
            .invoke (buildConcatDemuxerArgs o.inputs o.output (tempFileName tmpdir now)
              o.overwrite),
            .delete (tempFileName tmpdir now)]) := by
  constructor
  · intro p c
    by_cases h1 : o.inputs.length < 2
    · simp [merge, h1]
    · cases hf : o.inputs.find? (fun i => !inputExists i) with
      | some i => simp [merge, h1, hf]
      | none =>
        by_cases h2 : (outputExists && !o.overwrite) = true
        · simp [merge, h1, hf, h2]
        · by_cases h3 : o.reencode
          · simp [merge, h1, hf, h2, h3]
          · intro hm
            simp only [merge, h1, hf, h2, h3] at hm ⊢
            simp at hm
            simp [hm.1]
  · intro hre hlen hex hov
    have h1 : ¬ o.inputs.length < 2 := by omega
    have hf : o.inputs.find? (fun i => !inputExists i) = none := by
      rw [List.find?_eq_none]
      intro x hx
      simp [hex x hx]
    simp [merge, h1, hf, hov, hre]

/-- Witness for C9 over two files under a failing invocation. -/
theorem C9_witness :
    (merge { inputs := ["a.mp4", "b.mp4"], output := "out.mp4" } (fun _ => true) false
      (fun s => s) "/tmp" 7 ⟨1, "", "boom"⟩).2
    = [.create (tempFileName "/tmp" 7)
         (createFileListContent (fun s => s) ["a.mp4", "b.mp4"]),
       .invoke (buildConcatDemuxerArgs ["a.mp4", "b.mp4"] "out.mp4"
         (tempFileName "/tmp" 7) false),
       .delete (tempFileName "/tmp" 7)] :=
  (C9_merge_listfile_lifecycle { inputs := ["a.mp4", "b.mp4"], output := "out.mp4" }
    (fun _ => true) false (fun s => s) "/tmp" 7 ⟨1, "", "boom"⟩).2
    rfl (by decide) (by decide) rfl

theorem takeWhile_append_head {p : Char → Bool} :
    ∀ (l1 : List Char) (c : Char) (l2 : List Char),
    (∀ x ∈ l1, p x = true) → p c = false →
    (l1 ++ c :: l2).takeWhile p = l1 ∧ (l1 ++ c :: l2).dropWhile p = c :: l2 := by
  intro l1
  induction l1 with
  | nil =>
    intro c l2 _ hc
    constructor
    · simp [List.takeWhile, hc]
    · simp [List.dropWhile, hc]
  | cons a t ih =>
    intro c l2 h1 hc
    have ha : p a = true := h1 a (by simp)
    have iht := ih c l2 (fun x hx => h1 x (by simp [hx])) hc
    constructor
    · simp [List.takeWhile, ha, iht.1]
    · simp [List.dropWhile, ha, iht.2]

theorem parse_num_split (s : String) (c : Char) (rest : List Char)
    (h2 : ∀ x ∈ s.data, (x.isDigit || x = '.') = true)
    (hc : (c.isDigit || c = '.') = false) :
    (s ++ ⟨c :: rest⟩).data.takeWhile (fun ch => ch.isDigit || ch = '.') = s.data
    ∧ (s ++ ⟨c :: rest⟩).data.dropWhile (fun ch => ch.isDigit || ch = '.') = c :: rest := by
  rw [strData_append]
  exact takeWhile_append_head s.data c rest h2 hc

theorem parseSize_num_unit (s : String) (c : Char) (rest : List Char) (mult : JQ)
    (h1 : s.data ≠ []) (h2 : ∀ x ∈ s.data, (x.isDigit || x = '.') = true)
    (hc : (c.isDigit || c = '.') = false)
    (hu : sizeMultiplier
        (if ((c :: rest).dropWhile isJsWs).isEmpty then "B"
         else upperStr ⟨(c :: rest).dropWhile isJsWs⟩) = some mult) :
    parseSize (s ++ ⟨c :: rest⟩)
      = .ok ((jsParseFloat s).map (fun v => qOfInt (qFloor (qMul v mult)))) := by
  obtain ⟨ht, hd⟩ := parse_num_split s c rest h2 hc
  have hempty : s.data.isEmpty = false := by
    cases hs : s.data with
    | nil => exact absurd hs h1
    | cons a t => rfl
  simp only [parseSize, ht, hd, hempty, Bool.false_eq_true, if_false, hu]

theorem parseBitrate_m_general (s : String)
    (h1 : s.data ≠ []) (h2 : ∀ x ∈ s.data, (x.isDigit || x = '.') = true) :
    parseBitrate (s ++ "M")
      = .ok ((jsParseFloat s).map (fun v => qMul v (qOfInt 1000000))) := by
  have he : ("M" : String) = ⟨'M' :: []⟩ := rfl
  rw [he]
  obtain ⟨ht, hd⟩ := parse_num_split s 'M' [] h2 (by decide)
  have hempty : s.data.isEmpty = false := by
    cases hs : s.data with
    | nil => exact absurd hs h1
    | cons a t => rfl
  simp only [parseBitrate, ht, hd, hempty, Bool.false_eq_true, if_false]
  rfl

theorem parseBitrate_k_general (s : String)
    (h1 : s.data ≠ []) (h2 : ∀ x ∈ s.data, (x.isDigit || x = '.') = true) :
    parseBitrate (s ++ "k")
      = .ok ((jsParseFloat s).map (fun v => qMul v (qOfInt 1000))) := by
  have he : ("k" : String) = ⟨'k' :: []⟩ := rfl
  rw [he]
  obtain ⟨ht, hd⟩ := parse_num_split s 'k' [] h2 (by decide)
  have hempty : s.data.isEmpty = false := by
    cases hs : s.data with
    | nil => exact absurd hs h1
    | cons a t => rfl
  simp only [parseBitrate, ht, hd, hempty, Bool.false_eq_true, if_false]
  rfl

/-- Claim C10: parseSize uses binary multipliers (KB 1024, MB 1024^2,
GB 1024^3, TB 1024^4) and floors to an integer byte count, so 25MB is
26214400 bytes, while parseBitrate uses decimal multipliers (k 1000,
M 1000000), so 2M is 2000000 and 500k is 500000 bits per second; both throw
on strings that do not match their numeric-plus-unit format. -/
theorem C10_size_and_bitrate_units :
    (∀ s : String, s.data ≠ [] → (∀ x ∈ s.data, (x.isDigit || x = '.') = true) →
      parseSize (s ++ "KB")
        = .ok ((jsParseFloat s).map (fun v => qOfInt (qFloor (qMul v (qOfInt 1024)))))
      ∧ parseSize (s ++ "MB")
        = .ok ((jsParseFloat s).map (fun v => qOfInt (qFloor (qMul v (qOfInt 1048576)))))
      ∧ parseSize (s ++ "GB")
        = .ok ((jsParseFloat s).map (fun v => qOfInt (qFloor (qMul v (qOfInt 1073741824)))))
      ∧ parseSize (s ++ "TB")
        = .ok ((jsParseFloat s).map (fun v => qOfInt (qFloor (qMul v (qOfInt 1099511627776)))))
      ∧ parseBitrate (s ++ "M")
        = .ok ((jsParseFloat s).map (fun v => qMul v (qOfInt 1000000)))
      ∧ parseBitrate (s ++ "k")
        = .ok ((jsParseFloat s).map (fun v => qMul v (qOfInt 1000))))
    ∧ parseSize "25MB" = .ok (some (qOfInt 26214400))
    ∧ parseSize "0.3KB" = .ok (some (qOfInt 307))
    ∧ parseBitrate "2M" = .ok (some (qOfInt 2000000))
    ∧ parseBitrate "500k" = .ok (some (qOfInt 500000))
    ∧ parseSize "xyz" = .error "Invalid size format: xyz"
    ∧ parseSize "25XB" = .error "Invalid size format: 25XB"
    ∧ parseBitrate "xyz" = .error "Invalid bitrate format: xyz"
    ∧ parseBitrate "25MB" = .error "Invalid bitrate format: 25MB" := by
  refine ⟨?_, by decide, by decide, by decide, by decide, by decide, by decide,
    by decide, by decide⟩
  intro s h1 h2
  refine ⟨?_, ?_, ?_, ?_, parseBitrate_m_general s h1 h2, parseBitrate_k_general s h1 h2⟩
  · have he : ("KB" : String) = ⟨'K' :: ['B']⟩ := rfl
    rw [he]
    exact parseSize_num_unit s 'K' ['B'] (qOfInt 1024) h1 h2 (by decide) (by decide)
  · have he : ("MB" : String) = ⟨'M' :: ['B']⟩ := rfl
    rw [he]
    exact parseSize_num_unit s 'M' ['B'] (qOfInt 1048576) h1 h2 (by decide) (by decide)
  · have he : ("GB" : String) = ⟨'G' :: ['B']⟩ := rfl
    rw [he]
    exact parseSize_num_unit s 'G' ['B'] (qOfInt 1073741824) h1 h2 (by decide) (by decide)
  · have he : ("TB" : String) = ⟨'T' :: ['B']⟩ := rfl
    rw [he]
    exact parseSize_num_unit s 'T' ['B'] (qOfInt 1099511627776) h1 h2 (by decide) (by decide)

/-- Witness for C10 at the size string 25 with unit MB. -/
theorem C10_witness :
    parseSize ("25" ++ "MB")
      = .ok ((jsParseFloat "25").map (fun v => qOfInt (qFloor (qMul v (qOfInt 1048576))))) :=
  (C10_size_and_bitrate_units.1 "25" (by decide) (by decide)).2.1
